import Mathlib

/-!
Verification of the Lithoglyph storage-engine boundary.

The repository ships the generated C ABI header (src/generated/abi/bridge.h)
and C test drivers (src/core-zig/*.c). The Engine behind the boundary (block
allocator, transaction manager, journal/commit coordinator, reader, verifier
registry) is not part of the repository sources, so its operational behaviour
is modelled here from the specification, while everything that does appear in
the sources (status-code wire values, block-layout constants, the declared C
signatures) is embedded directly from those files.
-/

namespace Lithoglyph

/-! ## Status codes and layout constants (from src/generated/abi/bridge.h) -/

/-- Status codes of the boundary, from the FdbStatus enum in bridge.h
(lines 31-45). -/
inductive FdbStatus where
  | OK
  | ERR_INTERNAL
  | ERR_NOT_FOUND
  | ERR_INVALID_ARGUMENT
  | ERR_OUT_OF_MEMORY
  | ERR_NOT_IMPLEMENTED
  | ERR_TXN_NOT_ACTIVE
  | ERR_TXN_ALREADY_COMMITTED
  | ERR_IO_ERROR
  | ERR_CORRUPTION
  | ERR_CONFLICT
  | ERR_ALREADY_EXISTS
  deriving DecidableEq

/-- Wire value of each status code as assigned by the C enum in bridge.h. -/
def FdbStatus.wire : FdbStatus → Nat
  | .OK => 0
  | .ERR_INTERNAL => 1
  | .ERR_NOT_FOUND => 2
  | .ERR_INVALID_ARGUMENT => 3
  | .ERR_OUT_OF_MEMORY => 4
  | .ERR_NOT_IMPLEMENTED => 5
  | .ERR_TXN_NOT_ACTIVE => 6
  | .ERR_TXN_ALREADY_COMMITTED => 7
  | .ERR_IO_ERROR => 8
  | .ERR_CORRUPTION => 9
  | .ERR_CONFLICT => 10
  | .ERR_ALREADY_EXISTS => 11

/-- Block size in bytes, LG_BLOCK_SIZE in bridge.h. -/
def LG_BLOCK_SIZE : Nat := 4096

/-- Block header size in bytes, LG_BLOCK_HEADER_SIZE in bridge.h. -/
def LG_BLOCK_HEADER_SIZE : Nat := 64

/-- Block payload size in bytes, LG_BLOCK_PAYLOAD_SIZE in bridge.h. -/
def LG_BLOCK_PAYLOAD_SIZE : Nat := 4032

/-- Block type tag for documents, LG_BLOCK_TYPE_DOCUMENT in bridge.h. -/
def LG_BLOCK_TYPE_DOCUMENT : Nat := 0x0011

/-- Kinds of storage-level failure distinguished by the specification's
error-handling design (spec section 7). -/
inductive StorageFailure where
  | checksumMismatch
  | truncatedRecord
  | filesystemFailure
  deriving DecidableEq

/-- Modelled from the spec: the error-classification of the Engine is not
under src/; spec section 7 maps storage-integrity failures (checksum
mismatch, truncated record) to Corruption and filesystem failures to
IOError. -/
def storageFailureStatus : StorageFailure → FdbStatus
  | .checksumMismatch => .ERR_CORRUPTION
  | .truncatedRecord => .ERR_CORRUPTION
  | .filesystemFailure => .ERR_IO_ERROR

/-! ## C declaration embedding (for the ABI-agreement claim)

The two files that declare boundary functions are src/generated/abi/bridge.h
and src/core-zig/test-db-open.c. Each declaration is embedded as a return
type plus ordered parameter-type list. -/

/-- C types appearing in the compared declarations. -/
inductive CType where
  | cVoid
  | cInt
  | cUInt32
  | cUInt8
  | cSizeT
  | enumFdbStatus
  | structLgBlob
  | opaqueFdbDb
  | ptr (t : CType)
  deriving DecidableEq

/-- A C function declaration: name, return type, parameter types in order. -/
structure CFunDecl where
  name : String
  ret : CType
  params : List CType
  deriving DecidableEq

/-- bridge.h line 349: uint32_t fdb_version(void). -/
def bridgeDecl_fdb_version : CFunDecl := ⟨"fdb_version", .cUInt32, []⟩

/-- bridge.h lines 123-127: FdbStatus fdb_db_open(const uint8_t*, size_t,
const uint8_t*, size_t, FdbDb**, LgBlob*). -/
def bridgeDecl_fdb_db_open : CFunDecl :=
  ⟨"fdb_db_open", .enumFdbStatus,
    [.ptr .cUInt8, .cSizeT, .ptr .cUInt8, .cSizeT,
     .ptr (.ptr .opaqueFdbDb), .ptr .structLgBlob]⟩

/-- bridge.h line 135: FdbStatus fdb_db_close(FdbDb*). -/
def bridgeDecl_fdb_db_close : CFunDecl :=
  ⟨"fdb_db_close", .enumFdbStatus, [.ptr .opaqueFdbDb]⟩

/-- test-db-open.c line 14: extern int fdb_version(void). -/
def testDecl_fdb_version : CFunDecl := ⟨"fdb_version", .cInt, []⟩

/-- test-db-open.c line 15: extern int fdb_db_open(const uint8_t*, size_t,
const uint8_t*, size_t, void**, LgBlob*). -/
def testDecl_fdb_db_open : CFunDecl :=
  ⟨"fdb_db_open", .cInt,
    [.ptr .cUInt8, .cSizeT, .ptr .cUInt8, .cSizeT,
     .ptr (.ptr .cVoid), .ptr .structLgBlob]⟩

/-- test-db-open.c line 16: extern void fdb_db_close(void*). -/
def testDecl_fdb_db_close : CFunDecl :=
  ⟨"fdb_db_close", .cVoid, [.ptr .cVoid]⟩

/-- Field types of struct LgBlob in bridge.h lines 58-61. -/
def bridgeLgBlobFields : List CType := [.ptr .cUInt8, .cSizeT]

/-- Field types of the LgBlob struct re-declared in test-db-open.c
lines 9-12. -/
def testLgBlobFields : List CType := [.ptr .cUInt8, .cSizeT]

/-! ## Engine data model

Modelled from the spec (sections 3, 4.4, 4.6): the Engine implementation is
not under src/, only its generated header and test drivers are. Payload bytes
are lists of naturals; block stores are association lists from block id to
block content. -/

/-- A buffered operation of a transaction (spec section 3, Operation):
insert carries the tentatively assigned block id, update and delete name an
existing block id. -/
inductive Op where
  | insert (blockId : Nat) (payload : List Nat)
  | update (blockId : Nat) (payload : List Nat)
  | delete (blockId : Nat)
  deriving DecidableEq

/-- Modelled from the spec: a journal record (spec sections 3 and 4.4)
carries a sequence number and the committed transaction's ordered
operations; the intact flag models the record checksum being valid (false
models a torn tail write). -/
structure JournalRecord where
  sequence : Nat
  ops : List Op
  intact : Bool

/-- Modelled from the spec: a block's durable header content that the
claims mention — 16-bit type tag, version counter, payload (spec
section 3, Block). -/
structure Block where
  blockType : Nat
  version : Nat
  payload : List Nat

/-- Modelled from the spec: sentinel block-type tag marking a tombstoned
block (spec section 4.6 phase 4; the concrete sentinel value is not fixed by
the spec, only that it differs from the document tag). -/
def LG_BLOCK_TYPE_TOMBSTONE : Nat := 0xDEAD

/-- Modelled from the spec: the durable on-disk state of a database — the
block file contents, the append-only journal, and the superblock's
last-committed sequence number (spec sections 3 and 4.2-4.4). -/
structure DurableState where
  blocks : List (Nat × Block)
  journal : List JournalRecord
  lastSequence : Nat

/-- Look up a block id in a block store. -/
def lookupBlock : List (Nat × Block) → Nat → Option Block
  | [], _ => none
  | (i, b) :: rest, id => if i = id then some b else lookupBlock rest id

/-- Modelled from the spec: the effect of one committed operation on the
store of live blocks. A committed insert creates the block at version 1, a
committed update replaces the payload and increments the version counter
(spec section 3, Lifecycles), and a committed delete destroys the block. -/
def applyOp (s : List (Nat × Block)) : Op → List (Nat × Block)
  | .insert id p => (id, ⟨LG_BLOCK_TYPE_DOCUMENT, 1, p⟩) :: s.filter (fun q => q.1 ≠ id)
  | .update id p =>
      s.map (fun q => if q.1 = id then (q.1, ⟨q.2.blockType, q.2.version + 1, p⟩) else q)
  | .delete id => s.filter (fun q => q.1 ≠ id)

/-- Replay a list of operations over a block store. -/
def replayOps (s : List (Nat × Block)) (ops : List Op) : List (Nat × Block) :=
  ops.foldl applyOp s

/-- Replay a list of journal records over a block store. -/
def replayRecords (s : List (Nat × Block)) (recs : List JournalRecord) :
    List (Nat × Block) :=
  recs.foldl (fun a r => replayOps a r.ops) s

/-- The journal records the durable superblock makes visible: exactly those
with sequence at most the superblock's last committed sequence (readers read
through the latest durable superblock only, spec section 2). -/
def visibleRecords (d : DurableState) : List JournalRecord :=
  d.journal.filter (fun r => r.sequence ≤ d.lastSequence)

/-- The observable block store: the visible journal prefix replayed atop an
empty file (spec invariant 5). -/
def visibleBlocks (d : DurableState) : List (Nat × Block) :=
  replayRecords [] (visibleRecords d)

/-- Well-formedness of the durable state: every journal record is covered by
the superblock's last committed sequence (spec invariant 2). -/
def WFJournal (d : DurableState) : Prop :=
  ∀ r ∈ d.journal, r.sequence ≤ d.lastSequence

/-- The journal record a commit of the given operations serializes in phase
1: fresh sequence equal to superblock.last_sequence + 1 with a valid
checksum (spec section 4.6 phase 1). -/
def commitRecord (d : DurableState) (ops : List Op) : JournalRecord :=
  ⟨d.lastSequence + 1, ops, true⟩

/-- Modelled from the spec: phase 3 of commit — write the full data block
for each insert and update (spec section 4.6 phase 3). -/
def writeDataBlocks (blocks : List (Nat × Block)) (ops : List Op) :
    List (Nat × Block) :=
  ops.foldl (fun s op =>
    match op with
    | .insert id p => (id, ⟨LG_BLOCK_TYPE_DOCUMENT, 1, p⟩) :: s.filter (fun q => q.1 ≠ id)
    | .update id p =>
        s.map (fun q => if q.1 = id then (q.1, ⟨q.2.blockType, q.2.version + 1, p⟩) else q)
    | .delete _ => s) blocks

/-- Modelled from the spec: phase 4 of commit — mark each deleted block
tombstoned on disk, sentinel type plus version increment (spec section 4.6
phase 4). -/
def tombstoneBlocks (blocks : List (Nat × Block)) (ops : List Op) :
    List (Nat × Block) :=
  ops.foldl (fun s op =>
    match op with
    | .delete id =>
        s.map (fun q =>
          if q.1 = id then (q.1, ⟨LG_BLOCK_TYPE_TOMBSTONE, q.2.version + 1, q.2.payload⟩) else q)
    | _ => s) blocks

/-- Modelled from the spec: the durable state after the first k phases of
the six-phase commit protocol of spec section 4.6 have completed. Phase 1
serializes in memory (no durable change), phase 2 appends the journal
record, phase 3 writes data blocks, phase 4 applies tombstones, phase 5
durably advances the superblock (the linearization point), and phase 6
publishes the free list in memory only, so durable state at 6 equals
durable state at 5. -/
def commitUpTo (k : Nat) (d : DurableState) (ops : List Op) : DurableState :=
  let afterJournal : DurableState :=
    { d with journal := d.journal ++ [commitRecord d ops] }
  let afterBlocks : DurableState :=
    { afterJournal with blocks := writeDataBlocks afterJournal.blocks ops }
  let afterDeletes : DurableState :=
    { afterBlocks with blocks := tombstoneBlocks afterBlocks.blocks ops }
  let afterSuper : DurableState :=
    { afterDeletes with lastSequence := d.lastSequence + 1 }
  match k with
  | 0 => d
  | 1 => d
  | 2 => afterJournal
  | 3 => afterBlocks
  | 4 => afterDeletes
  | _ => afterSuper

/-- A journal record counts as committed in a durable state when it is in
the journal and covered by the superblock's last committed sequence. -/
def committedIn (d : DurableState) (r : JournalRecord) : Prop :=
  r ∈ d.journal ∧ r.sequence ≤ d.lastSequence

/-- The intact journal tail beyond the superblock: replay stops at the first
record with an invalid checksum (spec section 4.4). -/
def goodTail (d : DurableState) : List JournalRecord :=
  (d.journal.filter (fun r => d.lastSequence < r.sequence)).takeWhile
    (fun r => r.intact)

/-- Modelled from the spec: recovery at open (spec section 4.4) — replay the
intact journal records beyond the superblock onto the block file, truncate
the torn tail, and advance the superblock. -/
def recover (d : DurableState) : DurableState :=
  { blocks := replayRecords d.blocks (goodTail d)
    journal := visibleRecords d ++ goodTail d
    lastSequence := (goodTail d).foldl (fun m r => max m r.sequence) d.lastSequence }

/-- One engine step on durable state: a commit that completed k phases
(k < 5 models a failure before the linearization point), or a close-and-
reopen running recovery. -/
inductive EngineStep : DurableState → DurableState → Prop where
  | commit (d : DurableState) (ops : List Op) (k : Nat) :
      EngineStep d (commitUpTo k d ops)
  | reopen (d : DurableState) : EngineStep d (recover d)

/-- Any finite sequence of engine steps. -/
def EngineSteps : DurableState → DurableState → Prop :=
  Relation.ReflTransGen EngineStep

/-! ## Transactions and the boundary operations -/

/-- Transaction mode, LgTxnMode in bridge.h (read-only = 0,
read-write = 1). -/
inductive TxnMode where
  | readOnly
  | readWrite
  deriving DecidableEq

/-- Transaction state (spec section 3; the transient committing state only
exists inside a commit call and is never observable at the boundary, so the
model keeps the three boundary-observable states). -/
inductive TxnState where
  | active
  | committed
  | aborted

/-- Modelled from the spec: an in-memory transaction — mode, state, the
buffered operation list, the tentative block ids handed out by apply, and
the transaction's in-memory view of the allocator (free list plus next
fresh block id; spec sections 4.3 and 4.5). -/
structure Txn where
  mode : TxnMode
  state : TxnState
  buffer : List Op
  tentative : List Nat
  allocFree : List Nat
  allocNext : Nat

/-- Modelled from the spec: allocate a block id — pop the free-list head or
take the next fresh id past the end of the file (spec section 4.3; the
growth-step size only affects file size, not the id handed out). Returns
the id, the remaining free list, and the next fresh id. -/
def allocTake : List Nat → Nat → Nat × List Nat × Nat
  | h :: rest, next => (h, rest, next)
  | [], next => (next, [], next + 1)

/-- Modelled from the spec: an open database — its durable state plus the
in-memory allocator view (spec sections 3 and 4.3). -/
structure Db where
  durable : DurableState
  allocFree : List Nat
  allocNext : Nat

/-- Modelled from the spec: a freshly opened, empty database. Block ids
start at 1: id 0 is the reserved superblock and the first data block is
id 1, matching the block id the test drivers address after a first insert
(test-ffi-integration.c, test_update_block and test_delete_block). -/
def freshDb : Db :=
  { durable := { blocks := [], journal := [], lastSequence := 0 }
    allocFree := []
    allocNext := 1 }

/-- Modelled from the spec: fdb_txn_begin — a new transaction starts
active with an empty buffer and the database's allocator view. -/
def beginTxn (db : Db) (mode : TxnMode) : Txn :=
  { mode := mode
    state := .active
    buffer := []
    tentative := []
    allocFree := db.allocFree
    allocNext := db.allocNext }

/-- Result of fdb_apply at the boundary: status, the allocated block id
(the data blob of LgResult in bridge.h), and the updated transaction. -/
structure ApplyResult where
  status : FdbStatus
  blockId : Option Nat
  txn : Txn

/-- Modelled from the spec: fdb_apply — buffer an insert. Calls on a
committed or aborted transaction fail with the state-misuse codes (spec
section 4, state machines); read-only mode fails with InvalidArgument and
an oversized payload fails with InvalidArgument (spec section 4.5); else a
tentative block id is allocated from the in-memory allocator view and the
insert is buffered. -/
def txnApply (t : Txn) (p : List Nat) : ApplyResult :=
  match t.state with
  | .committed => ⟨.ERR_TXN_ALREADY_COMMITTED, none, t⟩
  | .aborted => ⟨.ERR_TXN_NOT_ACTIVE, none, t⟩
  | .active =>
    if t.mode = .readOnly then ⟨.ERR_INVALID_ARGUMENT, none, t⟩
    else if LG_BLOCK_PAYLOAD_SIZE < p.length then ⟨.ERR_INVALID_ARGUMENT, none, t⟩
    else
      let a := allocTake t.allocFree t.allocNext
      ⟨.OK, some a.1,
        { t with buffer := t.buffer ++ [Op.insert a.1 p]
                 tentative := a.1 :: t.tentative
                 allocFree := a.2.1
                 allocNext := a.2.2 }⟩

/-- Modelled from the spec: fdb_update_block — buffer an update of an
existing block; no disk is touched before commit (spec section 4.5). -/
def txnUpdateBlock (t : Txn) (id : Nat) (p : List Nat) : FdbStatus × Txn :=
  match t.state with
  | .committed => (.ERR_TXN_ALREADY_COMMITTED, t)
  | .aborted => (.ERR_TXN_NOT_ACTIVE, t)
  | .active =>
    if t.mode = .readOnly then (.ERR_INVALID_ARGUMENT, t)
    else if LG_BLOCK_PAYLOAD_SIZE < p.length then (.ERR_INVALID_ARGUMENT, t)
    else (.OK, { t with buffer := t.buffer ++ [Op.update id p] })

/-- Modelled from the spec: fdb_txn_abort — discard the buffer, release the
tentative block ids back to the in-memory allocator view, and mark the
transaction Aborted; no I/O happens (spec section 4.6, Abort). -/
def txnAbort (t : Txn) : FdbStatus × Txn :=
  match t.state with
  | .active =>
      (.OK, { t with state := .aborted
                     buffer := []
                     tentative := []
                     allocFree := t.tentative ++ t.allocFree })
  | .committed => (.ERR_TXN_ALREADY_COMMITTED, t)
  | .aborted => (.ERR_TXN_NOT_ACTIVE, t)

/-- The boundary-level abort on an open database: the durable state is
passed through untouched because abort performs no I/O. -/
def dbAbort (d : DurableState) (t : Txn) : FdbStatus × DurableState × Txn :=
  ((txnAbort t).1, d, (txnAbort t).2)

/-- Block ids deleted by a buffered operation list (published to the free
list in commit phase 6). -/
def deletedIds (ops : List Op) : List Nat :=
  ops.filterMap (fun op => match op with | .delete id => some id | _ => none)

/-- Modelled from the spec: fdb_txn_commit on an open database — an active
transaction runs all six phases of the commit protocol and becomes
Committed, with tombstoned blocks pushed onto the in-memory free list
(phase 6); calls on a committed or aborted transaction fail with the
state-misuse codes. -/
def dbCommitTxn (db : Db) (t : Txn) : FdbStatus × Db × Txn :=
  match t.state with
  | .active =>
      (.OK,
       { durable := commitUpTo 6 db.durable t.buffer
         allocFree := deletedIds t.buffer ++ t.allocFree
         allocNext := t.allocNext },
       { t with state := .committed })
  | .committed => (.ERR_TXN_ALREADY_COMMITTED, db, t)
  | .aborted => (.ERR_TXN_NOT_ACTIVE, db, t)

/-! ## Readers -/

/-- A rendered block as emitted by fdb_render_block: the payload plus the
header version counter when include_metadata is set. -/
structure Rendered where
  payload : List Nat
  version : Option Nat

/-- Modelled from the spec: fdb_render_block — read the block through the
latest durable superblock and render its payload, with the header version
as metadata when include_metadata is requested (spec section 4.7). -/
def renderBlock (db : Db) (id : Nat) (includeMeta : Bool) : Option Rendered :=
  match lookupBlock (visibleBlocks db.durable) id with
  | none => none
  | some b => some ⟨b.payload, if includeMeta then some b.version else none⟩

/-- Modelled from the spec: fdb_read_blocks — scan the blocks visible
through the latest durable superblock, filter by header type, and emit
records of block id, payload size, and payload data (spec section 4.7). -/
def readBlocks (db : Db) (btype : Nat) : List (Nat × Nat × List Nat) :=
  ((visibleBlocks db.durable).filter (fun q => q.2.blockType = btype)).map
    (fun q => (q.1, q.2.payload.length, q.2.payload))

/-- Modelled from the spec: fdb_render_journal — report the journal records
with sequence greater than the given bound (spec section 6, render_journal:
sequences greater than since). -/
def renderJournal (d : DurableState) (since : Nat) : List JournalRecord :=
  d.journal.filter (fun r => since < r.sequence)

/-- Run a list of fully successful commits, one transaction per operation
list, in order on one database handle (the single writer lock serializes
them, spec section 4.6). -/
def commitMany (d : DurableState) (opss : List (List Op)) : DurableState :=
  opss.foldl (fun a ops => commitUpTo 6 a ops) d

/-- Journal records numbered consecutively from a starting sequence. -/
def numbered (s : Nat) : List (List Op) → List JournalRecord
  | [] => []
  | ops :: rest => ⟨s, ops, true⟩ :: numbered (s + 1) rest

/-! ## Verifier registry -/

/-- A verifier-registry entry: proof-type name (bytes) with the identity of
the callback and its context (opaque at the boundary, so modelled as
numeric identities). -/
structure VerifierEntry where
  name : List Nat
  callbackId : Nat
  contextId : Nat
  deriving DecidableEq

/-- Modelled from the spec: fdb_proof_register_verifier — register replaces
on name collision and is idempotent on identical triples (spec section
4.9), so the new entry supersedes any entry of the same name. -/
def regRegister (reg : List VerifierEntry) (e : VerifierEntry) :
    FdbStatus × List VerifierEntry :=
  (.OK, e :: reg.filter (fun x => x.name ≠ e.name))

/-- Modelled from the spec: fdb_proof_unregister_verifier — remove the
entry of the given name, failing with NotFound when the name is absent
(spec section 4.9 and bridge.h lines 300-309). -/
def regUnregister (reg : List VerifierEntry) (name : List Nat) :
    FdbStatus × List VerifierEntry :=
  if reg.any (fun x => x.name = name) then
    (.OK, reg.filter (fun x => x.name ≠ name))
  else (.ERR_NOT_FOUND, reg)

/-! ## Theorems -/

/-- Claim C6: the boundary's status codes carry exactly the stable wire
values 0 OK through 11 AlreadyExists, and storage-integrity failures
(checksum mismatch, truncated record) map to the Corruption code (wire 9)
while filesystem failures map to the IOError code (wire 8). -/
theorem status_codes_stable_wire_values :
    FdbStatus.OK.wire = 0
    ∧ FdbStatus.ERR_INTERNAL.wire = 1
    ∧ FdbStatus.ERR_NOT_FOUND.wire = 2
    ∧ FdbStatus.ERR_INVALID_ARGUMENT.wire = 3
    ∧ FdbStatus.ERR_OUT_OF_MEMORY.wire = 4
    ∧ FdbStatus.ERR_NOT_IMPLEMENTED.wire = 5
    ∧ FdbStatus.ERR_TXN_NOT_ACTIVE.wire = 6
    ∧ FdbStatus.ERR_TXN_ALREADY_COMMITTED.wire = 7
    ∧ FdbStatus.ERR_IO_ERROR.wire = 8
    ∧ FdbStatus.ERR_CORRUPTION.wire = 9
    ∧ FdbStatus.ERR_CONFLICT.wire = 10
    ∧ FdbStatus.ERR_ALREADY_EXISTS.wire = 11
    ∧ storageFailureStatus StorageFailure.checksumMismatch = FdbStatus.ERR_CORRUPTION
    ∧ storageFailureStatus StorageFailure.truncatedRecord = FdbStatus.ERR_CORRUPTION
    ∧ storageFailureStatus StorageFailure.filesystemFailure = FdbStatus.ERR_IO_ERROR
    ∧ (storageFailureStatus StorageFailure.checksumMismatch).wire = 9
    ∧ (storageFailureStatus StorageFailure.truncatedRecord).wire = 9
    ∧ (storageFailureStatus StorageFailure.filesystemFailure).wire = 8 := by
  decide

/-- Claim C10, counterexample: the external declarations in
test-db-open.c do not agree with the generated header's declarations of the
same boundary functions — fdb_version is declared int versus uint32_t,
fdb_db_open int and void** versus FdbStatus and FdbDb**, and fdb_db_close
void versus FdbStatus. -/
theorem abi_decls_disagree :
    ¬(bridgeDecl_fdb_version = testDecl_fdb_version
      ∧ bridgeDecl_fdb_db_open = testDecl_fdb_db_open
      ∧ bridgeDecl_fdb_db_close = testDecl_fdb_db_close) := by
  decide

/-- Claim C10, amended: the two files declare the same three function names
with the same parameter counts, the re-declared LgBlob struct layout agrees
with the header, and fdb_db_open's parameter types agree except for the
handle out-parameter (void** versus FdbDb**); but the return types disagree
on all three functions — fdb_version int versus uint32_t, fdb_db_open int
versus FdbStatus, fdb_db_close void versus FdbStatus — so a caller compiled
against the two files does not see identical declared types. -/
theorem abi_decls_partial_agreement :
    bridgeDecl_fdb_version.name = testDecl_fdb_version.name
    ∧ bridgeDecl_fdb_db_open.name = testDecl_fdb_db_open.name
    ∧ bridgeDecl_fdb_db_close.name = testDecl_fdb_db_close.name
    ∧ bridgeDecl_fdb_version.params = testDecl_fdb_version.params
    ∧ bridgeDecl_fdb_db_open.params.length = testDecl_fdb_db_open.params.length
    ∧ bridgeDecl_fdb_db_close.params.length = testDecl_fdb_db_close.params.length
    ∧ bridgeDecl_fdb_db_open.params.take 4 = testDecl_fdb_db_open.params.take 4
    ∧ bridgeDecl_fdb_db_open.params.getLast? = testDecl_fdb_db_open.params.getLast?
    ∧ bridgeLgBlobFields = testLgBlobFields
    ∧ bridgeDecl_fdb_version.ret ≠ testDecl_fdb_version.ret
    ∧ bridgeDecl_fdb_db_open.ret ≠ testDecl_fdb_db_open.ret
    ∧ bridgeDecl_fdb_db_close.ret ≠ testDecl_fdb_db_close.ret := by
  decide

/-- Claim C5: on an active read-only transaction, apply fails with
InvalidArgument (wire value 3) for every payload, leaves the transaction
untouched, and a subsequent txn_abort returns OK. -/
theorem apply_readonly_rejected (t : Txn) (p : List Nat)
    (ha : t.state = .active) (hm : t.mode = .readOnly) :
    (txnApply t p).status = FdbStatus.ERR_INVALID_ARGUMENT
    ∧ (txnApply t p).status.wire = 3
    ∧ (txnApply t p).txn = t
    ∧ (txnAbort (txnApply t p).txn).1 = FdbStatus.OK := by
  cases t
  simp only [Txn.mk.injEq] at *
  subst ha hm
  simp [txnApply, txnAbort, FdbStatus.wire]

/-- Witness for apply_readonly_rejected at a concrete transaction and
payload. -/
theorem apply_readonly_rejected_witness :
    (txnApply (beginTxn freshDb .readOnly) [1, 2]).status
        = FdbStatus.ERR_INVALID_ARGUMENT
    ∧ (txnApply (beginTxn freshDb .readOnly) [1, 2]).status.wire = 3
    ∧ (txnApply (beginTxn freshDb .readOnly) [1, 2]).txn
        = beginTxn freshDb .readOnly
    ∧ (txnAbort (txnApply (beginTxn freshDb .readOnly) [1, 2]).txn).1
        = FdbStatus.OK :=
  apply_readonly_rejected (beginTxn freshDb .readOnly) [1, 2] rfl rfl

/-- Claim C9: the first insert applied in a freshly opened, empty database
succeeds and is assigned block id 1. -/
theorem first_insert_gets_block_id_one (p : List Nat)
    (hp : p.length ≤ LG_BLOCK_PAYLOAD_SIZE) :
    (txnApply (beginTxn freshDb .readWrite) p).status = FdbStatus.OK
    ∧ (txnApply (beginTxn freshDb .readWrite) p).blockId = some 1 := by
  have hnot : ¬(LG_BLOCK_PAYLOAD_SIZE < p.length) := Nat.not_lt.mpr hp
  simp [txnApply, beginTxn, freshDb, allocTake, hnot]

/-- Witness for first_insert_gets_block_id_one at a concrete payload. -/
theorem first_insert_gets_block_id_one_witness :
    (txnApply (beginTxn freshDb .readWrite) [42]).status = FdbStatus.OK
    ∧ (txnApply (beginTxn freshDb .readWrite) [42]).blockId = some 1 :=
  first_insert_gets_block_id_one [42] (by decide)

/-- Filtering away a name that is absent from the registry keeps every
entry. -/
theorem filter_absent_name_eq_self (reg : List VerifierEntry) (n : List Nat)
    (h : ∀ x ∈ reg, x.name ≠ n) :
    reg.filter (fun x => x.name ≠ n) = reg := by
  simp only [List.filter_eq_self, decide_eq_true_eq]
  exact h

/-- After removing a name from the registry, no entry of that name is
left. -/
theorem any_name_after_filter (reg : List VerifierEntry) (n : List Nat) :
    ((reg.filter (fun x => x.name ≠ n)).any (fun x => x.name = n)) = false := by
  induction reg with
  | nil => rfl
  | cons a r ih =>
      by_cases h : a.name = n
      · simp [List.filter_cons, h, ih]
      · simp [List.filter_cons, h, ih]

/-- Claim C8, counterexample: with verifier "t" (byte 116) registered under
callback identity 1, registering the same name with callback identity 2
(register replaces on name collision) and then unregistering the name does
not return the registry to its prior state — the original entry is gone. -/
theorem register_unregister_not_prior_state :
    (regUnregister (regRegister [⟨[116], 1, 0⟩] ⟨[116], 2, 0⟩).2 [116]).2
      ≠ [⟨[116], 1, 0⟩] := by
  decide

/-- Claim C8, amended: for every verifier name not already present in the
registry, registering a verifier and then unregistering it returns the
registry to its prior state; unregistering a name that is absent fails with
NotFound; and a second unregister of the same name immediately after one
unregister returns NotFound on every registry. -/
theorem register_unregister_roundtrip (reg : List VerifierEntry)
    (e : VerifierEntry) (habs : ∀ x ∈ reg, x.name ≠ e.name) :
    (regRegister reg e).1 = FdbStatus.OK
    ∧ (regUnregister (regRegister reg e).2 e.name).1 = FdbStatus.OK
    ∧ (regUnregister (regRegister reg e).2 e.name).2 = reg
    ∧ (regUnregister reg e.name).1 = FdbStatus.ERR_NOT_FOUND
    ∧ (∀ (r : List VerifierEntry) (n : List Nat),
        (regUnregister (regUnregister r n).2 n).1 = FdbStatus.ERR_NOT_FOUND) := by
  refine ⟨rfl, ?_, ?_, ?_, ?_⟩
  · simp [regRegister, regUnregister]
  · simp only [regRegister, regUnregister]
    rw [filter_absent_name_eq_self reg e.name habs]
    simp
    exact habs
  · have : reg.any (fun x => x.name = e.name) = false := by
      simp only [List.any_eq_false, decide_eq_true_eq]
      exact habs
    simp [regUnregister, this]
  · intro r n
    by_cases h : r.any (fun x => x.name = n) = true
    · simp [regUnregister, h, any_name_after_filter]
    · simp only [Bool.not_eq_true] at h
      simp [regUnregister, h]

/-- Witness for register_unregister_roundtrip on the empty registry and a
concrete entry. -/
theorem register_unregister_roundtrip_witness :
    (regRegister [] ⟨[116], 1, 0⟩).1 = FdbStatus.OK
    ∧ (regUnregister (regRegister [] ⟨[116], 1, 0⟩).2 [116]).1 = FdbStatus.OK
    ∧ (regUnregister (regRegister [] ⟨[116], 1, 0⟩).2 [116]).2 = []
    ∧ (regUnregister [] [116]).1 = FdbStatus.ERR_NOT_FOUND
    ∧ (∀ (r : List VerifierEntry) (n : List Nat),
        (regUnregister (regUnregister r n).2 n).1 = FdbStatus.ERR_NOT_FOUND) :=
  register_unregister_roundtrip [] ⟨[116], 1, 0⟩ (by simp)

/-- Claim C4: aborting an active transaction returns OK, performs no I/O
and leaves the durable state unchanged, discards the buffered operations,
releases the tentative block ids back to the allocator view, marks the
transaction Aborted, and afterwards no journal record referencing any of
the transaction's buffered operations appears in render_journal output. -/
theorem txn_abort_discards_everything (d : DurableState) (t : Txn)
    (since : Nat) (ha : t.state = .active)
    (hfresh : ∀ r ∈ d.journal, ∀ op ∈ t.buffer, op ∉ r.ops) :
    (dbAbort d t).1 = FdbStatus.OK
    ∧ (dbAbort d t).2.1 = d
    ∧ (dbAbort d t).2.2.state = TxnState.aborted
    ∧ (dbAbort d t).2.2.buffer = []
    ∧ (∀ i ∈ t.tentative, i ∈ (dbAbort d t).2.2.allocFree)
    ∧ (∀ r ∈ renderJournal (dbAbort d t).2.1 since, ∀ op ∈ t.buffer,
        op ∉ r.ops) := by
  obtain ⟨mo, st, buf, ten, fr, nx⟩ := t
  simp only at ha
  subst ha
  refine ⟨rfl, rfl, rfl, rfl, ?_, ?_⟩
  · intro i hi
    simp [dbAbort, txnAbort]
    exact Or.inl hi
  · intro r hr op hop
    have hrj : r ∈ d.journal := List.mem_of_mem_filter hr
    exact hfresh r hrj op hop

/-- Witness for txn_abort_discards_everything: a database with one durable
committed insert and an active transaction with one buffered insert on a
tentative id. -/
theorem txn_abort_discards_everything_witness :
    (dbAbort ⟨[(1, ⟨LG_BLOCK_TYPE_DOCUMENT, 1, [5]⟩)],
        [⟨1, [Op.insert 1 [5]], true⟩], 1⟩
      ⟨.readWrite, .active, [Op.insert 2 [7]], [2], [], 3⟩).1 = FdbStatus.OK
    ∧ (dbAbort ⟨[(1, ⟨LG_BLOCK_TYPE_DOCUMENT, 1, [5]⟩)],
          [⟨1, [Op.insert 1 [5]], true⟩], 1⟩
        ⟨.readWrite, .active, [Op.insert 2 [7]], [2], [], 3⟩).2.1
      = ⟨[(1, ⟨LG_BLOCK_TYPE_DOCUMENT, 1, [5]⟩)],
          [⟨1, [Op.insert 1 [5]], true⟩], 1⟩
    ∧ (dbAbort ⟨[(1, ⟨LG_BLOCK_TYPE_DOCUMENT, 1, [5]⟩)],
          [⟨1, [Op.insert 1 [5]], true⟩], 1⟩
        ⟨.readWrite, .active, [Op.insert 2 [7]], [2], [], 3⟩).2.2.state
      = TxnState.aborted
    ∧ (dbAbort ⟨[(1, ⟨LG_BLOCK_TYPE_DOCUMENT, 1, [5]⟩)],
          [⟨1, [Op.insert 1 [5]], true⟩], 1⟩
        ⟨.readWrite, .active, [Op.insert 2 [7]], [2], [], 3⟩).2.2.buffer = []
    ∧ (∀ i ∈ [2],
        i ∈ (dbAbort ⟨[(1, ⟨LG_BLOCK_TYPE_DOCUMENT, 1, [5]⟩)],
            [⟨1, [Op.insert 1 [5]], true⟩], 1⟩
          ⟨.readWrite, .active, [Op.insert 2 [7]], [2], [], 3⟩).2.2.allocFree)
    ∧ (∀ r ∈ renderJournal
          (dbAbort ⟨[(1, ⟨LG_BLOCK_TYPE_DOCUMENT, 1, [5]⟩)],
              [⟨1, [Op.insert 1 [5]], true⟩], 1⟩
            ⟨.readWrite, .active, [Op.insert 2 [7]], [2], [], 3⟩).2.1 0,
        ∀ op ∈ [Op.insert 2 [7]], op ∉ r.ops) :=
  txn_abort_discards_everything
    ⟨[(1, ⟨LG_BLOCK_TYPE_DOCUMENT, 1, [5]⟩)], [⟨1, [Op.insert 1 [5]], true⟩], 1⟩
    ⟨.readWrite, .active, [Op.insert 2 [7]], [2], [], 3⟩ 0 rfl (by decide)

/-- Folding max over journal sequences never decreases the accumulator. -/
theorem le_foldl_max (l : List JournalRecord) (init : Nat) :
    init ≤ l.foldl (fun m r => max m r.sequence) init := by
  induction l generalizing init with
  | nil => exact le_refl _
  | cons a l ih => exact le_trans (le_max_left _ _) (ih (max init a.sequence))

/-- A committed record stays committed after any number of completed commit
phases of a later transaction: the journal is append-only and the
superblock sequence never decreases. -/
theorem committedIn_commitUpTo (k : Nat) (d : DurableState) (ops : List Op)
    (r : JournalRecord) (hc : committedIn d r) :
    committedIn (commitUpTo k d ops) r := by
  obtain ⟨hm, hs⟩ := hc
  rcases k with _ | _ | _ | _ | _ | k
  · exact ⟨hm, hs⟩
  · exact ⟨hm, hs⟩
  · exact ⟨List.mem_append_left _ hm, hs⟩
  · exact ⟨List.mem_append_left _ hm, hs⟩
  · exact ⟨List.mem_append_left _ hm, hs⟩
  · exact ⟨List.mem_append_left _ hm, Nat.le_succ_of_le hs⟩

/-- A committed record survives recovery: replay keeps the visible prefix
and only advances the superblock. -/
theorem committedIn_recover (d : DurableState) (r : JournalRecord)
    (hc : committedIn d r) : committedIn (recover d) r := by
  obtain ⟨hm, hs⟩ := hc
  constructor
  · exact List.mem_append_left _ (List.mem_filter.mpr ⟨hm, by simpa using hs⟩)
  · exact le_trans hs (le_foldl_max _ _)

/-- A committed record survives one engine step. -/
theorem committedIn_step {d e : DurableState} (h : EngineStep d e)
    (r : JournalRecord) (hc : committedIn d r) : committedIn e r := by
  cases h with
  | commit ops k => exact committedIn_commitUpTo k d ops r hc
  | reopen => exact committedIn_recover d r hc

/-- A committed record survives any finite sequence of engine steps. -/
theorem committedIn_engineSteps {d e : DurableState} (h : EngineSteps d e)
    (r : JournalRecord) (hc : committedIn d r) : committedIn e r := by
  induction h with
  | refl => exact hc
  | tail _ hstep ih => exact committedIn_step hstep r ih

/-- Under a well-formed superblock every journal record is visible. -/
theorem visibleRecords_of_wf (d : DurableState) (hw : WFJournal d) :
    visibleRecords d = d.journal := by
  simp only [visibleRecords, List.filter_eq_self, decide_eq_true_eq]
  exact hw

/-- Appending the freshly serialized record beyond the superblock does not
change the visible journal prefix. -/
theorem filter_snoc_new (d : DurableState) (ops : List Op) :
    (d.journal ++ [commitRecord d ops]).filter
        (fun r => r.sequence ≤ d.lastSequence) = visibleRecords d := by
  rw [List.filter_append]
  have h : ¬(d.lastSequence + 1 ≤ d.lastSequence) := by omega
  simp [commitRecord, h, visibleRecords]

/-- Before phase 5, none of the durable effects of a commit change the
visible journal prefix. -/
theorem visibleRecords_commitUpTo_le4 (k : Nat) (d : DurableState)
    (ops : List Op) (hk : k ≤ 4) :
    visibleRecords (commitUpTo k d ops) = visibleRecords d := by
  interval_cases k
  · rfl
  · rfl
  · exact filter_snoc_new d ops
  · exact filter_snoc_new d ops
  · exact filter_snoc_new d ops

/-- After phase 5 the visible journal is the old journal plus the new
record. -/
theorem visibleRecords_commit6 (d : DurableState) (ops : List Op)
    (hw : WFJournal d) :
    visibleRecords (commitUpTo 6 d ops) = d.journal ++ [commitRecord d ops] := by
  show (d.journal ++ [commitRecord d ops]).filter
      (fun r => r.sequence ≤ d.lastSequence + 1) = _
  rw [List.filter_append]
  have h1 : d.journal.filter (fun r => r.sequence ≤ d.lastSequence + 1)
      = d.journal := by
    simp only [List.filter_eq_self, decide_eq_true_eq]
    exact fun r hr => Nat.le_succ_of_le (hw r hr)
  simp [h1, commitRecord]

/-- A fully completed commit makes exactly the transaction's operations
visible atop the previously visible blocks. -/
theorem visibleBlocks_commit6 (d : DurableState) (ops : List Op)
    (hw : WFJournal d) :
    visibleBlocks (commitUpTo 6 d ops) = replayOps (visibleBlocks d) ops := by
  simp only [visibleBlocks]
  rw [visibleRecords_commit6 d ops hw, visibleRecords_of_wf d hw]
  simp only [replayRecords, List.foldl_append]
  rfl

/-- Claim C1: on a well-formed database, a commit that fails before phase 5
(any k of the six phases with k at most 4 completed) leaves the database
observationally unchanged; a commit that completes all six phases makes
exactly the transaction's operations visible; and once phase 5 (the durable
superblock write) has completed, the commit's journal record is committed
and remains committed after every later sequence of engine steps — further
commits, failed commits, and recovery — so no subsequent failure can lose
the commit. -/
theorem commit_six_phases_atomic_durable (d : DurableState) (ops : List Op)
    (hw : WFJournal d) :
    (∀ k, k ≤ 4 → visibleBlocks (commitUpTo k d ops) = visibleBlocks d)
    ∧ visibleBlocks (commitUpTo 6 d ops) = replayOps (visibleBlocks d) ops
    ∧ committedIn (commitUpTo 5 d ops) (commitRecord d ops)
    ∧ (∀ e, EngineSteps (commitUpTo 5 d ops) e →
        committedIn e (commitRecord d ops)) := by
  refine ⟨?_, visibleBlocks_commit6 d ops hw, ?_, ?_⟩
  · intro k hk
    simp only [visibleBlocks, visibleRecords_commitUpTo_le4 k d ops hk]
  · exact ⟨List.mem_append_right _ (by simp), le_refl _⟩
  · intro e hsteps
    exact committedIn_engineSteps hsteps _
      ⟨List.mem_append_right _ (by simp), le_refl _⟩

/-- Witness for commit_six_phases_atomic_durable on the fresh durable state
and a one-insert transaction. -/
theorem commit_six_phases_atomic_durable_witness :
    (∀ k, k ≤ 4 →
      visibleBlocks (commitUpTo k ⟨[], [], 0⟩ [Op.insert 1 [42]])
        = visibleBlocks ⟨[], [], 0⟩)
    ∧ visibleBlocks (commitUpTo 6 ⟨[], [], 0⟩ [Op.insert 1 [42]])
        = replayOps (visibleBlocks ⟨[], [], 0⟩) [Op.insert 1 [42]]
    ∧ committedIn (commitUpTo 5 ⟨[], [], 0⟩ [Op.insert 1 [42]])
        (commitRecord ⟨[], [], 0⟩ [Op.insert 1 [42]])
    ∧ (∀ e, EngineSteps (commitUpTo 5 ⟨[], [], 0⟩ [Op.insert 1 [42]]) e →
        committedIn e (commitRecord ⟨[], [], 0⟩ [Op.insert 1 [42]])) :=
  commit_six_phases_atomic_durable ⟨[], [], 0⟩ [Op.insert 1 [42]]
    (by intro r hr; simp at hr)

/-- The block id fdb_apply hands out: the next id of the transaction's
allocator view. -/
def allocId (t : Txn) : Nat := (allocTake t.allocFree t.allocNext).1

/-- Committing a buffer that ends in an insert leaves that insert's block
on top of the visible store. -/
theorem visibleBlocks_commit6_snoc_insert (d : DurableState) (buf : List Op)
    (id : Nat) (p : List Nat) (hw : WFJournal d) :
    visibleBlocks (commitUpTo 6 d (buf ++ [Op.insert id p]))
      = (id, ⟨LG_BLOCK_TYPE_DOCUMENT, 1, p⟩)
          :: (replayOps (visibleBlocks d) buf).filter (fun q => q.1 ≠ id) := by
  rw [visibleBlocks_commit6 d _ hw]
  simp only [replayOps, List.foldl_append]
  rfl

/-- Claim C2: for every payload within the block payload limit, inserting
it via apply in an active read-write transaction on a well-formed database
and committing succeeds; render_block on the block id returned by apply
yields the originally supplied payload verbatim; and read_blocks on the
document type (0x0011) contains a record whose block id is that id, whose
size is the payload length, and whose data equals that payload, the block
id being a positive integer. -/
theorem insert_commit_roundtrip (db : Db) (t : Txn) (p : List Nat)
    (hs : t.state = .active) (hm : t.mode = .readWrite)
    (hw : WFJournal db.durable)
    (hn : 0 < t.allocNext) (hf : ∀ i ∈ t.allocFree, 0 < i)
    (hp : p.length ≤ LG_BLOCK_PAYLOAD_SIZE) :
    (txnApply t p).status = FdbStatus.OK
    ∧ (txnApply t p).blockId = some (allocId t)
    ∧ 0 < allocId t
    ∧ (dbCommitTxn db (txnApply t p).txn).1 = FdbStatus.OK
    ∧ renderBlock (dbCommitTxn db (txnApply t p).txn).2.1 (allocId t) false
        = some ⟨p, none⟩
    ∧ (allocId t, p.length, p) ∈
        readBlocks (dbCommitTxn db (txnApply t p).txn).2.1
          LG_BLOCK_TYPE_DOCUMENT := by
  obtain ⟨mo, st, buf, ten, fr, nx⟩ := t
  simp only at hs hm
  subst hs hm
  have hnot : ¬(LG_BLOCK_PAYLOAD_SIZE < p.length) := Nat.not_lt.mpr hp
  have hpos : 0 < allocId ⟨.readWrite, .active, buf, ten, fr, nx⟩ := by
    cases fr with
    | nil => simpa [allocId, allocTake] using hn
    | cons h rest => simpa [allocId, allocTake] using hf h (by simp)
  have hv := visibleBlocks_commit6_snoc_insert db.durable buf
    ((allocTake fr nx).1) p hw
  refine ⟨?_, ?_, hpos, ?_, ?_, ?_⟩
  · simp [txnApply, hnot]
  · simp [txnApply, hnot, allocId]
  · simp [txnApply, hnot, dbCommitTxn]
  · simp [txnApply, hnot, dbCommitTxn, renderBlock, allocId, hv, lookupBlock]
  · simp [txnApply, hnot, dbCommitTxn, readBlocks, allocId, hv,
      List.filter_cons, LG_BLOCK_TYPE_DOCUMENT]

/-- Witness for insert_commit_roundtrip: a three-byte payload inserted into
a fresh database through a fresh read-write transaction. -/
theorem insert_commit_roundtrip_witness :
    (txnApply (beginTxn freshDb .readWrite) [1, 2, 3]).status = FdbStatus.OK
    ∧ (txnApply (beginTxn freshDb .readWrite) [1, 2, 3]).blockId
        = some (allocId (beginTxn freshDb .readWrite))
    ∧ 0 < allocId (beginTxn freshDb .readWrite)
    ∧ (dbCommitTxn freshDb
        (txnApply (beginTxn freshDb .readWrite) [1, 2, 3]).txn).1
        = FdbStatus.OK
    ∧ renderBlock
        (dbCommitTxn freshDb
          (txnApply (beginTxn freshDb .readWrite) [1, 2, 3]).txn).2.1
        (allocId (beginTxn freshDb .readWrite)) false
        = some ⟨[1, 2, 3], none⟩
    ∧ (allocId (beginTxn freshDb .readWrite), 3, [1, 2, 3]) ∈
        readBlocks
          (dbCommitTxn freshDb
            (txnApply (beginTxn freshDb .readWrite) [1, 2, 3]).txn).2.1
          LG_BLOCK_TYPE_DOCUMENT :=
  insert_commit_roundtrip freshDb (beginTxn freshDb .readWrite) [1, 2, 3]
    rfl rfl (by intro r hr; simp [freshDb] at hr) (by decide) (by simp [freshDb, beginTxn])
    (by decide)

/-- Looking a block up after an update-style map over the store yields the
updated block. -/
theorem lookupBlock_map_update (s : List (Nat × Block)) (id : Nat)
    (f : Block → Block) (b : Block) (hb : lookupBlock s id = some b) :
    lookupBlock (s.map (fun q => if q.1 = id then (q.1, f q.2) else q)) id
      = some (f b) := by
  induction s generalizing b with
  | nil => simp [lookupBlock] at hb
  | cons a rest ih =>
      obtain ⟨i, blk⟩ := a
      show lookupBlock ((if i = id then (i, f blk) else (i, blk)) ::
        rest.map (fun q => if q.1 = id then (q.1, f q.2) else q)) id
        = some (f b)
      by_cases h : i = id
      · rw [if_pos h]
        have hbb : blk = b := by
          have hh : (if i = id then some blk else lookupBlock rest id)
              = some b := hb
          rw [if_pos h] at hh
          injection hh
        subst hbb
        show (if i = id then some (f blk)
          else lookupBlock (rest.map
            (fun q => if q.1 = id then (q.1, f q.2) else q)) id) = some (f blk)
        rw [if_pos h]
      · rw [if_neg h]
        have hbrest : lookupBlock rest id = some b := by
          have hh : (if i = id then some blk else lookupBlock rest id)
              = some b := hb
          rwa [if_neg h] at hh
        show (if i = id then some blk
          else lookupBlock (rest.map
            (fun q => if q.1 = id then (q.1, f q.2) else q)) id) = some (f b)
        rw [if_neg h]
        exact ih b hbrest

/-- The insert-then-update scenario of test_update_block: open a fresh
database, insert a first payload and commit, then update block 1 with a
second payload and commit. -/
def updateScenario (p1 p2 : List Nat) : Db :=
  let a1 := txnApply (beginTxn freshDb .readWrite) p1
  let db1 := (dbCommitTxn freshDb a1.txn).2.1
  let u2 := txnUpdateBlock (beginTxn db1 .readWrite) 1 p2
  (dbCommitTxn db1 u2.2).2.1

/-- Claim C7: each committed update increments the updated block's header
version counter by exactly one and replaces its payload, on every
well-formed database and live block; in particular, after inserting a
first payload into a fresh database and committing, then updating block 1
with a second payload and committing, render_block with include_metadata
yields the new payload with metadata version 2. -/
theorem update_increments_version (d : DurableState) (id : Nat) (b : Block)
    (p p1 p2 : List Nat) (hw : WFJournal d)
    (hb : lookupBlock (visibleBlocks d) id = some b)
    (h1 : p1.length ≤ LG_BLOCK_PAYLOAD_SIZE)
    (h2 : p2.length ≤ LG_BLOCK_PAYLOAD_SIZE) :
    lookupBlock (visibleBlocks (commitUpTo 6 d [Op.update id p])) id
      = some ⟨b.blockType, b.version + 1, p⟩
    ∧ renderBlock (updateScenario p1 p2) 1 true = some ⟨p2, some 2⟩ := by
  have hnot1 : ¬(LG_BLOCK_PAYLOAD_SIZE < p1.length) := Nat.not_lt.mpr h1
  have hnot2 : ¬(LG_BLOCK_PAYLOAD_SIZE < p2.length) := Nat.not_lt.mpr h2
  constructor
  · have hmap := lookupBlock_map_update (visibleBlocks d) id
      (fun blk => ⟨blk.blockType, blk.version + 1, p⟩) b hb
    rw [visibleBlocks_commit6 d _ hw]
    exact hmap
  · have hwfresh : WFJournal ⟨[], [], 0⟩ := by
      intro r hr; simp at hr
    have hwf : WFJournal (commitUpTo 6 ⟨[], [], 0⟩ [Op.insert 1 p1]) := by
      intro r hr
      simp [commitUpTo, commitRecord] at hr
      subst hr
      simp [commitUpTo]
    have hv1 : visibleBlocks (commitUpTo 6 ⟨[], [], 0⟩ [Op.insert 1 p1])
        = [(1, ⟨LG_BLOCK_TYPE_DOCUMENT, 1, p1⟩)] := by
      have hsnoc := visibleBlocks_commit6_snoc_insert ⟨[], [], 0⟩ []
        1 p1 hwfresh
      simpa [visibleBlocks, visibleRecords, replayRecords,
        replayOps] using hsnoc
    have hv2 : visibleBlocks
        (commitUpTo 6 (commitUpTo 6 ⟨[], [], 0⟩ [Op.insert 1 p1])
          [Op.update 1 p2])
        = [(1, ⟨LG_BLOCK_TYPE_DOCUMENT, 2, p2⟩)] := by
      rw [visibleBlocks_commit6 _ _ hwf, hv1]
      simp [replayOps, applyOp]
    have ha1 : txnApply (beginTxn freshDb .readWrite) p1
        = ⟨.OK, some 1, ⟨.readWrite, .active, [Op.insert 1 p1], [1], [], 2⟩⟩ := by
      simp [txnApply, beginTxn, freshDb, allocTake, hnot1]
    have hdb1 : (dbCommitTxn freshDb
          (txnApply (beginTxn freshDb .readWrite) p1).txn).2.1
        = ⟨commitUpTo 6 ⟨[], [], 0⟩ [Op.insert 1 p1], [], 2⟩ := by
      rw [ha1]
      simp [dbCommitTxn, deletedIds, freshDb]
    have hsc : updateScenario p1 p2
        = (dbCommitTxn ⟨commitUpTo 6 ⟨[], [], 0⟩ [Op.insert 1 p1], [], 2⟩
            (txnUpdateBlock
              (beginTxn ⟨commitUpTo 6 ⟨[], [], 0⟩ [Op.insert 1 p1], [], 2⟩
                .readWrite) 1 p2).2).2.1 := by
      simp only [updateScenario]
      rw [hdb1]
    have hu2 : (txnUpdateBlock
          (beginTxn ⟨commitUpTo 6 ⟨[], [], 0⟩ [Op.insert 1 p1], [], 2⟩
            .readWrite) 1 p2).2
        = ⟨.readWrite, .active, [Op.update 1 p2], [], [], 2⟩ := by
      simp [txnUpdateBlock, beginTxn, hnot2]
    have hdb2 : (dbCommitTxn ⟨commitUpTo 6 ⟨[], [], 0⟩ [Op.insert 1 p1], [], 2⟩
          ⟨.readWrite, .active, [Op.update 1 p2], [], [], 2⟩).2.1
        = ⟨commitUpTo 6 (commitUpTo 6 ⟨[], [], 0⟩ [Op.insert 1 p1])
            [Op.update 1 p2], [], 2⟩ := by
      simp [dbCommitTxn, deletedIds]
    rw [hsc, hu2, hdb2]
    simp only [renderBlock]
    rw [hv2]
    simp [lookupBlock]

/-- Witness for update_increments_version at concrete payloads and a
concrete one-block database. -/
theorem update_increments_version_witness :
    lookupBlock
        (visibleBlocks (commitUpTo 6
          ⟨[(1, ⟨LG_BLOCK_TYPE_DOCUMENT, 1, [7]⟩)],
            [⟨1, [Op.insert 1 [7]], true⟩], 1⟩ [Op.update 1 [8]])) 1
      = some ⟨LG_BLOCK_TYPE_DOCUMENT, 2, [8]⟩
    ∧ renderBlock (updateScenario [7] [8]) 1 true = some ⟨[8], some 2⟩ :=
  update_increments_version
    ⟨[(1, ⟨LG_BLOCK_TYPE_DOCUMENT, 1, [7]⟩)], [⟨1, [Op.insert 1 [7]], true⟩], 1⟩
    1 ⟨LG_BLOCK_TYPE_DOCUMENT, 1, [7]⟩ [8] [7] [8]
    (by intro r hr; simp at hr; subst hr; simp) rfl (by decide)
    (by decide)

/-- After any run of fully successful commits, the journal is the old
journal followed by records numbered consecutively from the old superblock
sequence plus one, and the superblock advances by the number of commits. -/
theorem commitMany_journal (opss : List (List Op)) : ∀ (d : DurableState),
    (commitMany d opss).journal
        = d.journal ++ numbered (d.lastSequence + 1) opss
    ∧ (commitMany d opss).lastSequence = d.lastSequence + opss.length := by
  induction opss with
  | nil => intro d; simp [commitMany, numbered]
  | cons ops rest ih =>
      intro d
      have h := ih (commitUpTo 6 d ops)
      have hstep : commitMany d (ops :: rest)
          = commitMany (commitUpTo 6 d ops) rest := rfl
      constructor
      · rw [hstep, h.1]
        show (d.journal ++ [commitRecord d ops])
            ++ numbered (d.lastSequence + 1 + 1) rest
          = d.journal ++ numbered (d.lastSequence + 1) (ops :: rest)
        rw [List.append_assoc]
        rfl
      · rw [hstep, h.2]
        show d.lastSequence + 1 + rest.length
          = d.lastSequence + (ops :: rest).length
        simp only [List.length_cons]
        omega

/-- The sequences of consecutively numbered records form the contiguous
range starting at the first sequence. -/
theorem numbered_map_sequence (l : List (List Op)) : ∀ (s : Nat),
    (numbered s l).map (fun r => r.sequence) = List.range' s l.length := by
  induction l with
  | nil => intro s; rfl
  | cons a l ih =>
      intro s
      simp only [numbered, List.map_cons, ih (s + 1), List.length_cons,
        List.range'_succ]

/-- Filtering consecutively numbered records above a bound yields the
contiguous range of the surviving sequences. -/
theorem numbered_filter_map_sequence (l : List (List Op)) : ∀ (s t : Nat),
    ((numbered s l).filter (fun r => t < r.sequence)).map
        (fun r => r.sequence)
      = if t < s then List.range' s l.length
        else List.range' (t + 1) (s + l.length - (t + 1)) := by
  induction l with
  | nil =>
      intro s t
      by_cases h : t < s
      · simp [numbered, h]
      · have hz : s - (t + 1) = 0 := by omega
        simp [numbered, h, hz]
  | cons a l ih =>
      intro s t
      by_cases h : t < s
      · have h2 : t < s + 1 := by omega
        have hrec := ih (s + 1) t
        rw [if_pos h2] at hrec
        simp [numbered, List.filter_cons, h, hrec, List.range'_succ]
      · have hrec := ih (s + 1) t
        by_cases h2 : t < s + 1
        · rw [if_pos h2] at hrec
          have hts : t = s := by omega
          subst hts
          have harg : t + (l.length + 1) - (t + 1) = l.length := by omega
          simp [numbered, List.filter_cons, h, hrec, harg]
        · rw [if_neg h2] at hrec
          have harg : s + 1 + l.length - (t + 1)
              = s + (l.length + 1) - (t + 1) := by omega
          rw [harg] at hrec
          simp [numbered, List.filter_cons, h, hrec]

/-- Claim C3: over any sequence of commits on one database handle starting
from a fresh database, the journal's sequence numbers are exactly 1, 2, ...,
n in commit order — strictly increasing integers with no gaps, the earlier
commit bearing the smaller sequence — and render_journal(since) reports
exactly the records with sequence greater than since, namely those numbered
since + 1 through n. -/
theorem journal_sequences_gapfree (opss : List (List Op)) (since : Nat) :
    (commitMany ⟨[], [], 0⟩ opss).journal.map (fun r => r.sequence)
        = List.range' 1 opss.length
    ∧ (renderJournal (commitMany ⟨[], [], 0⟩ opss) since).map
          (fun r => r.sequence)
        = List.range' (since + 1) (opss.length - since) := by
  have hj := (commitMany_journal opss ⟨[], [], 0⟩).1
  constructor
  · rw [hj]
    show (numbered 1 opss).map (fun r => r.sequence) = _
    exact numbered_map_sequence opss 1
  · simp only [renderJournal]
    rw [hj]
    show ((numbered 1 opss).filter (fun r => since < r.sequence)).map
        (fun r => r.sequence) = _
    rw [numbered_filter_map_sequence opss 1 since]
    by_cases h : since < 1
    · have hs : since = 0 := by omega
      subst hs
      simp
    · rw [if_neg h]
      congr 1
      omega

end Lithoglyph
